import Mathlib

/-!
Verification of two emulation subsystems of this repository:

* the Disney Sound Source FIFO DAC engine (`src/hardware/disney.cpp`), and
* the MIDI byte-stream router/parser with sysex pacing and backend
  selection (`src/midi/midi.cpp`, included through `midi_coremidi.h`,
  plus `include/midi.h`).

The C++ is shallowly embedded: each function becomes a Lean function on
an explicit state record.  Machine bytes are `Nat`s (callers feed 8-bit
values), times are `ℚ` (for the `double` millisecond clock of the DAC)
or `ℤ` (for the millisecond tick counter used by the MIDI pacing code).
Fallible operations - the C++ `assert(fifo.size())` in `Disney::Render`
- return `Option`, with `none` marking an assertion failure.  External
collaborators (the mixer channel, `PIC_FullIndex`, `GetTicks`, `Delay`,
the capture subsystem and the concrete CoreMIDI/ALSA/... backends) are
out of scope per the spec; their inputs appear as parameters (`now`,
`wake_up`) and their invocations as emitted events.
-/

namespace Disney

/-- `dac_rate_hz` from disney.cpp: the DSS runs at 7 kHz. -/
def dac_rate_hz : ℕ := 7000

/-- `ms_per_frame = 1000.0 / dac_rate_hz` from disney.cpp, embedded
exactly as the rational 1000/7000. -/
def ms_per_frame : ℚ := 1000 / 7000

/-- `max_fifo_size` from disney.cpp. -/
def max_fifo_size : ℕ := 16

/-- The mutable state of the `Disney` class that the claims concern:
the sample FIFO, the pre-rendered frame queue and the virtual-time
cursor.  A queued frame is represented by the 8-bit FIFO byte it was
rendered from; the `lut_u8to16` conversion and mono-to-stereo
duplication performed by the external mixer do not affect frame
counts or ordering, so they are not modelled. -/
structure State where
  fifo : List ℕ
  render_queue : List ℕ
  last_rendered_ms : ℚ

/-- `Disney::IsFull`: `fifo.size() >= max_fifo_size`. -/
def IsFull (s : State) : Bool := max_fifo_size ≤ s.fifo.length

/-- `Disney::Render`.  The C++ asserts the FIFO is non-empty (`none`
here), reads the front sample, and pops it only when more than one
sample remains. -/
def Render (s : State) : Option (ℕ × State) :=
  match s.fifo with
  | [] => none
  | front :: rest =>
      some (front, if rest.isEmpty then s else { s with fifo := rest })

/-- The catch-up loop of `Disney::RenderUpToNow`:
`while (last_rendered_ms < now) { last_rendered_ms += ms_per_frame;
render_queue.emplace(Render()); }`.  Each iteration advances the
cursor by one sample period, renders one frame (possibly popping the
FIFO) and appends it to the render queue. -/
def renderLoop (now : ℚ) (s : State) : Option State :=
  if h : s.last_rendered_ms < now then
    match Render s with
    | none => none
    | some fs =>
        renderLoop now
          { fs.2 with
            last_rendered_ms := s.last_rendered_ms + ms_per_frame,
            render_queue := fs.2.render_queue ++ [fs.1] }
  else
    some s
termination_by ⌈(now - s.last_rendered_ms) * 7⌉₊
decreasing_by
  simp_wf
  have hx : 0 < (now - s.last_rendered_ms) * 7 :=
    mul_pos (sub_pos.mpr h) (by norm_num)
  have heq : (now - (s.last_rendered_ms + ms_per_frame)) * 7
      = (now - s.last_rendered_ms) * 7 - 1 := by
    simp only [ms_per_frame]; ring
  rw [heq]
  have h0 : 0 < ⌈(now - s.last_rendered_ms) * 7⌉₊ := Nat.ceil_pos.mpr hx
  have h1 : ⌈(now - s.last_rendered_ms) * 7 - 1⌉₊ ≤
      ⌈(now - s.last_rendered_ms) * 7⌉₊ - 1 := by
    rw [Nat.ceil_le, Nat.cast_sub h0, Nat.cast_one]
    have hle := Nat.le_ceil ((now - s.last_rendered_ms) * 7)
    linarith
  exact lt_of_le_of_lt h1 (Nat.sub_lt h0 Nat.one_pos)

/-- `Disney::RenderUpToNow`.  `wake_up` is the result of the external
`channel->WakeUp()` call: when true the cursor is stamped to `now`
and nothing is rendered. -/
def RenderUpToNow (s : State) (now : ℚ) (wake_up : Bool) : Option State :=
  if wake_up then some { s with last_rendered_ms := now }
  else renderLoop now s

/-- `Disney::WriteData` (port write handler): catch-up render, then
append the byte only when the FIFO is not full. -/
def WriteData (s : State) (now : ℚ) (wake_up : Bool) (data : ℕ) :
    Option State :=
  (RenderUpToNow s now wake_up).map fun s1 =>
    if IsFull s1 then s1 else { s1 with fifo := s1.fifo ++ [data] }

/-- `Disney::WriteControl`: only the catch-up render. -/
def WriteControl (s : State) (now : ℚ) (wake_up : Bool) : Option State :=
  RenderUpToNow s now wake_up

/-- First loop of `Disney::AudioCallback`: pop frames off
`render_queue` while frames remain requested and the queue is
non-empty.  Returns the new state, the delivered frames in order, and
the number of frames still remaining. -/
def drainLoop : State → ℕ → State × List ℕ × ℕ
  | s, 0 => (s, [], 0)
  | s, r + 1 =>
      match s.render_queue with
      | [] => (s, [], r + 1)
      | f :: rest =>
          let t := drainLoop { s with render_queue := rest } r
          (t.1, f :: t.2.1, t.2.2)

/-- Second loop of `Disney::AudioCallback`: synthesize the remaining
frames by calling `Render` directly. -/
def synthLoop : State → ℕ → Option (State × List ℕ)
  | s, 0 => some (s, [])
  | s, r + 1 =>
      match Render s with
      | none => none
      | some fs => (synthLoop fs.2 r).map fun t => (t.1, fs.1 :: t.2)

/-- `Disney::AudioCallback(requested_frames)`: drain the render
queue, synthesize the remainder, then stamp the virtual-time cursor
with the current time (`PIC_FullIndex()`, passed as `now`).  Returns
the new state and the frames delivered to the channel. -/
def AudioCallback (s : State) (requested_frames : ℕ) (now : ℚ) :
    Option (State × List ℕ) :=
  let t := drainLoop s requested_frames
  (synthLoop t.1 t.2.2).map fun u =>
    ({ u.1 with last_rendered_ms := now }, t.2.1 ++ u.2)

/-- The state built by the `Disney` constructor: the FIFO primed with
the single silent sample (`Mixer_GetSilentDOSSample`, external), the
render queue empty, the cursor at its zero-initialized value. -/
def init (silent : ℕ) : State :=
  { fifo := [silent], render_queue := [], last_rendered_ms := 0 }

/-- Iterated `WriteData` at a fixed instant (no pull, no elapsed
virtual time in between). -/
def WriteSeq : State → List ℕ → Option State
  | s, [] => some s
  | s, b :: rest => (WriteData s 0 false b).bind fun s1 => WriteSeq s1 rest

end Disney

/-- `MIDI_SYSEX_SIZE` from include/midi.h. -/
def MIDI_SYSEX_SIZE : ℕ := 8192

/-- The 256-entry `MIDI_evt_len` table from midi.cpp, row for row. -/
def MIDI_evt_len_table : List ℕ :=
  [0,0,0,0, 0,0,0,0, 0,0,0,0, 0,0,0,0,
   0,0,0,0, 0,0,0,0, 0,0,0,0, 0,0,0,0,
   0,0,0,0, 0,0,0,0, 0,0,0,0, 0,0,0,0,
   0,0,0,0, 0,0,0,0, 0,0,0,0, 0,0,0,0,
   0,0,0,0, 0,0,0,0, 0,0,0,0, 0,0,0,0,
   0,0,0,0, 0,0,0,0, 0,0,0,0, 0,0,0,0,
   0,0,0,0, 0,0,0,0, 0,0,0,0, 0,0,0,0,
   0,0,0,0, 0,0,0,0, 0,0,0,0, 0,0,0,0,

   3,3,3,3, 3,3,3,3, 3,3,3,3, 3,3,3,3,
   3,3,3,3, 3,3,3,3, 3,3,3,3, 3,3,3,3,
   3,3,3,3, 3,3,3,3, 3,3,3,3, 3,3,3,3,
   3,3,3,3, 3,3,3,3, 3,3,3,3, 3,3,3,3,

   2,2,2,2, 2,2,2,2, 2,2,2,2, 2,2,2,2,
   2,2,2,2, 2,2,2,2, 2,2,2,2, 2,2,2,2,

   3,3,3,3, 3,3,3,3, 3,3,3,3, 3,3,3,3,

   0,2,3,2, 0,0,1,0, 1,0,1,1, 1,0,1,0]

/-- Table lookup `MIDI_evt_len[b]` (indices are bytes, so the default
is never used for byte input). -/
def MIDI_evt_len (b : ℕ) : ℕ := MIDI_evt_len_table.getD b 0

/-- `delay_in_ms` from midi.cpp:
`(sysex_bytes_num * 1.25) / 3.125` computed in `double`, then
`static_cast<int>` (truncation toward zero; the operand is
non-negative, hence a floor) plus 2.  For the argument range that can
occur (`≤ MIDI_SYSEX_SIZE`) the `double` computation is exact enough
that truncating it equals the exact rational floor used here. -/
def delay_in_ms (sysex_bytes_num : ℕ) : ℤ :=
  ⌊((sysex_bytes_num : ℚ) * 1.25) / 3.125⌋ + 2

/-- Pointwise update of a byte array modelled as a function, i.e.
`f[i] = v` in C. -/
def upd (f : ℕ → ℕ) (i v : ℕ) : ℕ → ℕ := fun j => if j = i then v else f j

/-- The per-slot portion of the global `DB_Midi midi` struct that
`MIDI_RawOutByte(data, slot)` reads and writes: `midi.status[slot]`,
`midi.cmd[slot]` and `midi.sysex[slot]`.  The byte buffers are
functions from index to byte, mirroring C arrays (out-of-range reads
return whatever is stored, never trap). -/
structure MidiSlot where
  status : ℕ
  cmd_len : ℕ
  cmd_pos : ℕ
  cmd_buf : ℕ → ℕ
  sysex_buf : ℕ → ℕ
  sysex_used : ℕ
  sysex_delay : ℤ
  sysex_start : ℤ

/-- Observable calls made by the router into its collaborators:
`handler->PlayMsg` with a message of the given bytes,
`handler->PlaySysex` with the given buffer, or the LOG-and-discard
branch for an invalid MT-32 sysex. -/
inductive MidiEvent where
  | playMsg (msg : List ℕ)
  | playSysex (buf : List ℕ)
  | logSkippedSysex
deriving DecidableEq, Repr

/-- The first `len` bytes of a buffer, as handed to a backend. -/
def bufBytes (f : ℕ → ℕ) (len : ℕ) : List ℕ := (List.range len).map f

/-- The sysex-terminator branch of `MIDI_RawOutByte` (status is 0xf0
and the byte has its high bit set): append 0xf7, then either log and
skip an invalid MT-32 message (armed slot, total length 4..9,
`buf[1]==0x41 && buf[3]==0x16`), or dispatch `PlaySysex` and - when
pacing is armed (`start != 0`) - store the pacing delay (three
device-specific overrides on `buf[5..7]`, else `delay_in_ms`) and
re-stamp `start = GetTicks()` (passed as `now`). -/
def finalizeSysex (s : MidiSlot) (now : ℤ) : MidiSlot × List MidiEvent :=
  let b := upd s.sysex_buf s.sysex_used 0xf7
  let used := s.sysex_used + 1
  let s1 := { s with sysex_buf := b, sysex_used := used }
  if s1.sysex_start ≠ 0 ∧ 4 ≤ used ∧ used ≤ 9 ∧ b 1 = 0x41 ∧ b 3 = 0x16 then
    (s1, [MidiEvent.logSkippedSysex])
  else
    let evs := [MidiEvent.playSysex (bufBytes b used)]
    if s1.sysex_start ≠ 0 then
      let d : ℤ :=
        if b 5 = 0x7f then 290
        else if b 5 = 0x10 ∧ b 6 = 0x00 ∧ b 7 = 0x04 then 145
        else if b 5 = 0x10 ∧ b 6 = 0x00 ∧ b 7 = 0x01 then 30
        else delay_in_ms used
      ({ s1 with sysex_delay := d, sysex_start := now }, evs)
    else (s1, evs)

/-- The `if (data & 0x80)` status-latch step of `MIDI_RawOutByte`:
latch the status byte, reset `cmd.pos`, look up `cmd.len`; a 0xf0
status additionally seeds the sysex buffer (the C++ compares
`midi.status[slot]==0xf0` right after the assignment, which is the
same as comparing `data`). -/
def statusLatch (s : MidiSlot) (data : ℕ) : MidiSlot :=
  if data &&& 0x80 ≠ 0 then
    let t := { s with status := data, cmd_pos := 0,
                      cmd_len := MIDI_evt_len data }
    if data = 0xf0 then
      { t with sysex_buf := upd t.sysex_buf 0 0xf0, sysex_used := 1 }
    else t
  else s

/-- The trailing `if (midi.cmd[slot].len)` step of `MIDI_RawOutByte`:
append the byte at `cmd.pos`, and on completion (`pos >= len`)
dispatch the fixed-length message and reset `pos = 1` for running
status.  The capture hook (`CAPTURE_AddMidi`, external) is not
modelled. -/
def cmdStep (s : MidiSlot) (data : ℕ) : MidiSlot × List MidiEvent :=
  if s.cmd_len ≠ 0 then
    let s1 := { s with cmd_buf := upd s.cmd_buf s.cmd_pos data,
                       cmd_pos := s.cmd_pos + 1 }
    if s1.cmd_len ≤ s1.cmd_pos then
      ({ s1 with cmd_pos := 1 },
       [MidiEvent.playMsg (bufBytes s1.cmd_buf s1.cmd_len)])
    else (s1, [])
  else (s, [])

/-- `MIDI_RawOutByte(data, slot)` from midi.cpp, for one slot.  The
initial pacing block only calls `Delay` (an external sleep) and mutates no
parser state, so it is not modelled.  A realtime byte (>= 0xf8) is
forwarded immediately (`rt_buf[0] = data; PlayMsg(rt_buf)`) and
returns; a data byte during sysex accumulates (with the capacity
guard `used < MIDI_SYSEX_SIZE - 1`) and returns; otherwise a pending
sysex is finalized, then the status latch and the fixed-command step
run in sequence. -/
def MIDI_RawOutByte (s : MidiSlot) (data : ℕ) (now : ℤ) :
    MidiSlot × List MidiEvent :=
  if 0xf8 ≤ data then
    (s, [MidiEvent.playMsg [data]])
  else if s.status = 0xf0 ∧ data &&& 0x80 = 0 then
    (if s.sysex_used < MIDI_SYSEX_SIZE - 1 then
       { s with sysex_buf := upd s.sysex_buf s.sysex_used data,
                sysex_used := s.sysex_used + 1 }
     else s, [])
  else
    let r1 := if s.status = 0xf0 then finalizeSysex s now else (s, [])
    let s2 := statusLatch r1.1 data
    let r3 := cmdStep s2 data
    (r3.1, r1.2 ++ r3.2)

/-- Feed a byte sequence through `MIDI_RawOutByte`, concatenating the
emitted backend calls. -/
def feedBytes (s : MidiSlot) (bytes : List ℕ) (now : ℤ) :
    MidiSlot × List MidiEvent :=
  match bytes with
  | [] => (s, [])
  | b :: rest =>
      let r1 := MIDI_RawOutByte s b now
      let r2 := feedBytes r1.1 rest now
      (r2.1, r1.2 ++ r2.2)

/-- A freshly cleared slot (`MIDI_ClearBuffer` state with zeroed
buffers, pacing never armed): `status = 0`, `cmd.pos = cmd.len = 0`,
`sysex.used = 0`, `delay = start = 0`. -/
def clearedSlot : MidiSlot :=
  { status := 0, cmd_len := 0, cmd_pos := 0, cmd_buf := fun _ => 0,
    sysex_buf := fun _ => 0, sysex_used := 0, sysex_delay := 0,
    sysex_start := 0 }

/-- A cleared slot whose sysex pacing was armed at session start
(`delaysysex` configured: `start = GetTicks()`, here 1000). -/
def armedSlot : MidiSlot := { clearedSlot with sysex_start := 1000 }

/-- The armed slot after the sysex body `F0 42 10 00 04 00` (a
non-MT-32 manufacturer, no device-specific delay signature). -/
def c6Slot : MidiSlot :=
  (feedBytes armedSlot [0xf0, 0x42, 0x10, 0x00, 0x04, 0x00] 1000).1

/-- The armed slot after the truncated MT-32 sysex body
`F0 41 10 16` (`buf[1] = 0x41`, `buf[3] = 0x16`). -/
def c7Slot : MidiSlot :=
  (feedBytes armedSlot [0xf0, 0x41, 0x10, 0x16] 1000).1

/-- The sysex-capacity invariant: while collecting (status 0xf0) the
used count stays below `MIDI_SYSEX_SIZE - 1` plus the reserved
terminator slot, and it never exceeds `MIDI_SYSEX_SIZE` at all. -/
def sysexInv (s : MidiSlot) : Prop :=
  (s.status = 0xf0 → s.sysex_used ≤ MIDI_SYSEX_SIZE - 1) ∧
  s.sysex_used ≤ MIDI_SYSEX_SIZE

/-- `MIDI_RawOutRTByte` from midi.cpp: drop everything when the
realtime flag is off; drop MIDI clock (0xf8) when clock passthrough
is off; otherwise hand the realtime byte to the active handler
(the C++ stores it in `midi.cmd_r` and passes that buffer's address
to `PlayMsg`; the event records the byte being handed over). -/
def MIDI_RawOutRTByte (realtime clockout : Bool) (data : ℕ) :
    List MidiEvent :=
  if !realtime then []
  else if !clockout && data == 0xf8 then []
  else [MidiEvent.playMsg [data]]

/-- `MIDI_RawOutThruRTByte` from midi.cpp: gate on `midi.thruchan`. -/
def MIDI_RawOutThruRTByte (thruchan realtime clockout : Bool) (data : ℕ) :
    List MidiEvent :=
  if thruchan then MIDI_RawOutRTByte realtime clockout data else []

/-- A registered backend as the selection logic sees it: its
`GetName()` and whether its `Open(conf)` succeeds (the config string
is fixed for the whole selection pass). -/
structure MidiHandlerM where
  name : String
  openOk : Bool
deriving DecidableEq, Repr

/-- The explicit-name search loop of the `MIDI` constructor:
first handler in list order whose name matches. -/
def handlerFind (dev : String) : List MidiHandlerM → Option MidiHandlerM
  | [] => none
  | h :: rest => if h.name = dev then some h else handlerFind dev rest

/-- The `getdefault` loop of the `MIDI` constructor: walk the handler
list, skip `fluidsynth` and `mt32` (opt-in only), open the first
remaining handler that succeeds. -/
def getdefault : List MidiHandlerM → Option MidiHandlerM
  | [] => none
  | h :: rest =>
      if h.name = "fluidsynth" then getdefault rest
      else if h.name = "mt32" then getdefault rest
      else if h.openOk then some h
      else getdefault rest

/-- The backend-selection logic of the `MIDI` constructor: "auto" and
"default" go straight to `getdefault`; an explicit name is looked up,
and both a failed `Open` and a missing name fall back to
`getdefault`. -/
def midiSelect (dev : String) (hs : List MidiHandlerM) :
    Option MidiHandlerM :=
  if dev = "auto" ∨ dev = "default" then getdefault hs
  else
    match handlerFind dev hs with
    | some h => if h.openOk then some h else getdefault hs
    | none => getdefault hs

/-- Modelled from the spec: the base `MidiHandler` class (the "none"
backend, `MidiHandler Midi_none`) is declared in `midi_handler.h`,
which is not among the sources; per the spec the built-in no-op
backend reports the name "none", always opens successfully, and -
being constructed before every other handler in midi.cpp while
registration prepends - sits last in the iteration order. -/
def midiNoneHandler : MidiHandlerM := { name := "none", openOk := true }

/-- The spec's wording of auto-selection: the first handler in
registration-iteration order that is not excluded from auto-selection
and whose `Open` succeeds. -/
def autoPick (hs : List MidiHandlerM) : Option MidiHandlerM :=
  hs.find? fun h =>
    (!(h.name == "fluidsynth") && !(h.name == "mt32")) && h.openOk

namespace Disney

lemma renderLoop_of_not_lt (now : ℚ) (s : State)
    (h : ¬ s.last_rendered_ms < now) : renderLoop now s = some s := by
  rw [renderLoop]; rw [dif_neg h]

lemma Render_spec (s : State) (h : s.fifo ≠ []) :
    ∃ f s1, Render s = some (f, s1) ∧ s1.fifo ≠ [] ∧
      s1.fifo.length ≤ s.fifo.length ∧
      s1.render_queue = s.render_queue ∧
      s1.last_rendered_ms = s.last_rendered_ms := by
  match hf : s.fifo with
  | [] => exact absurd hf h
  | front :: rest =>
    by_cases hr : rest.isEmpty
    · exact ⟨front, s, by simp [Render, hf, hr], h, by simp [hf], rfl, rfl⟩
    · refine ⟨front, { s with fifo := rest },
        by simp [Render, hf, hr], ?_, by simp [hf], rfl, rfl⟩
      simpa [List.isEmpty_iff] using hr

lemma renderLoop_fifo (now : ℚ) (s : State) :
    s.fifo ≠ [] →
    ∃ s1, renderLoop now s = some s1 ∧ s1.fifo ≠ [] ∧
      s1.fifo.length ≤ s.fifo.length := by
  induction s using renderLoop.induct with
  | now => exact now
  | case1 s hlt hnone =>
    intro h
    obtain ⟨f, s1, hr, -, -, -, -⟩ := Render_spec s h
    rw [hr] at hnone
    exact absurd hnone (by simp)
  | case2 s hlt fs hfs ih =>
    intro h
    obtain ⟨f, s1, hr, hne, hlen, hrq, hlast⟩ := Render_spec s h
    have hfs1 : fs = (f, s1) := by
      have := hfs.symm.trans hr
      exact Option.some.inj this
    subst hfs1
    obtain ⟨s2, heq2, hne2, hlen2⟩ := ih (by simpa using hne)
    refine ⟨s2, ?_, hne2, ?_⟩
    · rw [renderLoop]
      rw [dif_pos hlt, hfs]
      exact heq2
    · simp only at hlen2
      omega
  | case3 s hlt =>
    intro h
    exact ⟨s, by rw [renderLoop]; rw [dif_neg hlt], h, le_rfl⟩

lemma RenderUpToNow_spec (s : State) (now : ℚ) (wake : Bool)
    (h : s.fifo ≠ []) :
    ∃ s1, RenderUpToNow s now wake = some s1 ∧ s1.fifo ≠ [] ∧
      s1.fifo.length ≤ s.fifo.length := by
  unfold RenderUpToNow
  by_cases hw : wake
  · exact ⟨{ s with last_rendered_ms := now }, by simp [hw], h, le_rfl⟩
  · simp only [hw, if_false]
    exact renderLoop_fifo now s h

lemma WriteData_spec (s : State) (now : ℚ) (wake : Bool) (d : ℕ)
    (hinv : 1 ≤ s.fifo.length ∧ s.fifo.length ≤ max_fifo_size) :
    ∃ s1, WriteData s now wake d = some s1 ∧
      1 ≤ s1.fifo.length ∧ s1.fifo.length ≤ max_fifo_size := by
  have hne : s.fifo ≠ [] := by
    cases hf : s.fifo with
    | nil => rw [hf] at hinv; simp at hinv
    | cons a l => simp
  obtain ⟨s1, heq, hne1, hlen1⟩ := RenderUpToNow_spec s now wake hne
  unfold WriteData
  rw [heq]
  by_cases hful : IsFull s1
  · refine ⟨s1, by simp [hful], ?_, ?_⟩
    · have := List.length_pos.mpr hne1; omega
    · omega
  · refine ⟨{ s1 with fifo := s1.fifo ++ [d] }, by simp [hful], by simp, ?_⟩
    have : ¬ (max_fifo_size ≤ s1.fifo.length) := by
      simpa [IsFull] using hful
    simp only [List.length_append, List.length_cons, List.length_nil]
    omega

lemma drainLoop_eq (n : ℕ) : ∀ s : State,
    drainLoop s n = ({ s with render_queue := s.render_queue.drop n },
                     s.render_queue.take n, n - s.render_queue.length) := by
  induction n with
  | zero => intro s; obtain ⟨fi, rq, lms⟩ := s; simp [drainLoop]
  | succ r ih =>
    intro s
    obtain ⟨fi, rq, lms⟩ := s
    cases rq with
    | nil => simp [drainLoop]
    | cons f rest =>
      simp only [drainLoop, ih, List.drop_succ_cons, List.take_succ_cons,
        List.length_cons, Prod.mk.injEq]
      exact ⟨trivial, trivial, by omega⟩

lemma synthLoop_spec (r : ℕ) : ∀ s : State, s.fifo ≠ [] →
    ∃ s1 out, synthLoop s r = some (s1, out) ∧ out.length = r ∧
      s1.fifo ≠ [] ∧ s1.fifo.length ≤ s.fifo.length ∧
      s1.render_queue = s.render_queue ∧
      s1.last_rendered_ms = s.last_rendered_ms := by
  induction r with
  | zero => intro s h; exact ⟨s, [], rfl, rfl, h, le_rfl, rfl, rfl⟩
  | succ r ih =>
    intro s h
    obtain ⟨f, s1, hr, hne, hlen, hrq, hlast⟩ := Render_spec s h
    obtain ⟨s2, out, hs, hol, hne2, hlen2, hrq2, hlast2⟩ := ih s1 hne
    refine ⟨s2, f :: out, ?_, by simp [hol], hne2, by omega, ?_, ?_⟩
    · simp only [synthLoop, hr, hs]; rfl
    · rw [hrq2, hrq]
    · rw [hlast2, hlast]

lemma AudioCallback_spec (s : State) (n : ℕ) (now : ℚ) (h : s.fifo ≠ []) :
    ∃ s1 synth,
      AudioCallback s n now = some (s1, s.render_queue.take n ++ synth) ∧
      (s.render_queue.take n ++ synth).length = n ∧
      s1.render_queue = s.render_queue.drop n ∧
      s1.last_rendered_ms = now ∧
      s1.fifo ≠ [] ∧ s1.fifo.length ≤ s.fifo.length := by
  unfold AudioCallback
  rw [drainLoop_eq]
  obtain ⟨s2, out, hsl, hol, hne2, hlen2, hrq2, hlast2⟩ :=
    synthLoop_spec (n - s.render_queue.length)
      { s with render_queue := s.render_queue.drop n } (by simpa using h)
  refine ⟨{ s2 with last_rendered_ms := now }, out, ?_, ?_, ?_, rfl, hne2, ?_⟩
  · simp only [hsl]; rfl
  · simp only [List.length_append, List.length_take, hol]
    omega
  · simpa using hrq2
  · simpa using hlen2

lemma WriteData_at_zero (s : State) (b : ℕ) (h : s.last_rendered_ms = 0) :
    WriteData s 0 false b =
      some (if IsFull s then s else { s with fifo := s.fifo ++ [b] }) := by
  unfold WriteData RenderUpToNow
  rw [if_neg (by simp)]
  rw [renderLoop_of_not_lt 0 s (by rw [h]; exact lt_irrefl 0)]
  rfl

lemma WriteSeq_min (bs : List ℕ) : ∀ s : State, s.last_rendered_ms = 0 →
    s.fifo.length ≤ max_fifo_size →
    ∃ s1, WriteSeq s bs = some s1 ∧
      s1.fifo.length = min (s.fifo.length + bs.length) max_fifo_size ∧
      s1.last_rendered_ms = 0 := by
  induction bs with
  | nil =>
    intro s h hle
    exact ⟨s, rfl, by simp; omega, h⟩
  | cons b rest ih =>
    intro s h hle
    simp only [WriteSeq]
    rw [WriteData_at_zero s b h]
    by_cases hful : IsFull s
    · have h16 : s.fifo.length = max_fifo_size := by
        have := (by simpa [IsFull] using hful : max_fifo_size ≤ s.fifo.length)
        omega
      simp only [hful, if_true, Option.some_bind]
      obtain ⟨s1, heq, hlen, hl⟩ := ih s h hle
      refine ⟨s1, heq, ?_, hl⟩
      rw [hlen, h16]
      simp [max_fifo_size]
    · have hlt : ¬ (max_fifo_size ≤ s.fifo.length) := by
        simpa [IsFull] using hful
      simp only [hful, if_false, Option.some_bind]
      obtain ⟨s1, heq, hlen, hl⟩ :=
        ih { s with fifo := s.fifo ++ [b] } h (by simp; omega)
      refine ⟨s1, heq, ?_, hl⟩
      rw [hlen]
      simp only [List.length_append, List.length_cons, List.length_nil]
      omega

/-- Claim C3: every call to the audio pull callback with requested
frame count `n` delivers exactly `n` frames to the channel: it first
drains pre-rendered frames from `render_queue` in FIFO order (up to
`n`, shown by the delivered list starting with `render_queue.take n`),
then synthesizes the remaining frames on demand from the FIFO head;
the `some` result certifies that the `assert(fifo.size())` inside
`Render` never fires (no frame is sourced from an empty FIFO), and
afterwards `last_rendered_ms` is reset to the current time. -/
theorem audioCallback_pull (s : State) (n : ℕ) (now : ℚ) (h : s.fifo ≠ []) :
    ∃ s1 synth,
      AudioCallback s n now = some (s1, s.render_queue.take n ++ synth) ∧
      (s.render_queue.take n ++ synth).length = n ∧
      s1.render_queue = s.render_queue.drop n ∧
      s1.last_rendered_ms = now ∧
      s1.fifo ≠ [] := by
  obtain ⟨s1, synth, h1, h2, h3, h4, h5, -⟩ := AudioCallback_spec s n now h
  exact ⟨s1, synth, h1, h2, h3, h4, h5⟩

/-- Witness for `audioCallback_pull`: a pull of 3 frames from a state
with two queued frames and a primed FIFO. -/
theorem audioCallback_pull_witness :
    ({ fifo := [128], render_queue := [1, 2], last_rendered_ms := 0 } :
        State).fifo ≠ [] ∧
    ∃ s1 synth,
      AudioCallback
          { fifo := [128], render_queue := [1, 2], last_rendered_ms := 0 }
          3 7 =
        some (s1,
          ({ fifo := [128], render_queue := [1, 2], last_rendered_ms := 0 } :
              State).render_queue.take 3 ++ synth) ∧
      (({ fifo := [128], render_queue := [1, 2], last_rendered_ms := 0 } :
          State).render_queue.take 3 ++ synth).length = 3 ∧
      s1.render_queue =
        ({ fifo := [128], render_queue := [1, 2], last_rendered_ms := 0 } :
            State).render_queue.drop 3 ∧
      s1.last_rendered_ms = 7 ∧
      s1.fifo ≠ [] :=
  ⟨by decide, audioCallback_pull _ 3 7 (by decide)⟩

/-- Claim C4: from any state satisfying `1 ≤ fifo.size ≤ 16`, the
engine operations (`Render`, `WriteData`, `WriteControl`,
`AudioCallback`) preserve the bound; `Render` does not pop when only
one sample remains; and 17 consecutive `WriteData`s from the
constructed state - no pull and no elapsed virtual time in between -
leave the FIFO at exactly 16, the overflowing bytes dropped. -/
theorem disney_fifo_invariant (s : State) (now : ℚ) (wake : Bool)
    (d n silent : ℕ) (bs : List ℕ)
    (hinv : 1 ≤ s.fifo.length ∧ s.fifo.length ≤ max_fifo_size)
    (hbs : bs.length = 17) :
    (∀ f s1, Render s = some (f, s1) →
        1 ≤ s1.fifo.length ∧ s1.fifo.length ≤ max_fifo_size) ∧
    (s.fifo.length = 1 → ∀ f s1, Render s = some (f, s1) → s1.fifo = s.fifo) ∧
    (∃ s1, WriteData s now wake d = some s1 ∧
        1 ≤ s1.fifo.length ∧ s1.fifo.length ≤ max_fifo_size) ∧
    (∃ s1, WriteControl s now wake = some s1 ∧
        1 ≤ s1.fifo.length ∧ s1.fifo.length ≤ max_fifo_size) ∧
    (∀ s1 out, AudioCallback s n now = some (s1, out) →
        1 ≤ s1.fifo.length ∧ s1.fifo.length ≤ max_fifo_size) ∧
    (∃ s1, WriteSeq (init silent) bs = some s1 ∧
        s1.fifo.length = max_fifo_size) := by
  have hne : s.fifo ≠ [] := by
    cases hf : s.fifo with
    | nil => rw [hf] at hinv; simp at hinv
    | cons a l => simp
  refine ⟨?_, ?_, ?_, ?_, ?_, ?_⟩
  · intro f s1 heq
    obtain ⟨f', s1', hr, hne', hlen', -, -⟩ := Render_spec s hne
    have hp : (f, s1) = (f', s1') := Option.some.inj (heq.symm.trans hr)
    have hs : s1 = s1' := congrArg Prod.snd hp
    subst hs
    exact ⟨List.length_pos.mpr hne', le_trans hlen' hinv.2⟩
  · intro h1 f s1 heq
    obtain ⟨a, ha⟩ := List.length_eq_one.mp h1
    have hra : Render s = some (a, s) := by simp [Render, ha]
    have hp : (a, s) = (f, s1) := Option.some.inj (hra.symm.trans heq)
    have hs : s = s1 := congrArg Prod.snd hp
    rw [← hs]
  · exact WriteData_spec s now wake d hinv
  · obtain ⟨s1, heq, hne1, hlen1⟩ := RenderUpToNow_spec s now wake hne
    exact ⟨s1, heq, List.length_pos.mpr hne1, le_trans hlen1 hinv.2⟩
  · intro s1 out heq
    obtain ⟨s1', synth, h1, -, -, -, hne1, hlen1⟩ :=
      AudioCallback_spec s n now hne
    have hp := Option.some.inj (h1.symm.trans heq)
    have hs : s1' = s1 := congrArg Prod.fst hp
    rw [hs] at hne1 hlen1
    exact ⟨List.length_pos.mpr hne1, le_trans hlen1 hinv.2⟩
  · obtain ⟨s1, heq, hlen, -⟩ :=
      WriteSeq_min bs (init silent) rfl (by simp [init, max_fifo_size])
    refine ⟨s1, heq, ?_⟩
    rw [hlen, hbs]
    simp [init, max_fifo_size]

/-- Witness for `disney_fifo_invariant`: the constructed state and a
batch of 17 writes. -/
theorem disney_fifo_invariant_witness :
    (1 ≤ (init 128).fifo.length ∧ (init 128).fifo.length ≤ max_fifo_size) ∧
    (List.replicate 17 0).length = 17 ∧
    (∃ s1, WriteSeq (init 128) (List.replicate 17 0) = some s1 ∧
        s1.fifo.length = max_fifo_size) :=
  ⟨by decide, by decide,
    (disney_fifo_invariant (init 128) 0 false 5 2 128 (List.replicate 17 0)
      (by decide) (by decide)).2.2.2.2.2⟩

end Disney

lemma cmdStep_sysex_fields (s : MidiSlot) (data : ℕ) :
    (cmdStep s data).1.status = s.status ∧
    (cmdStep s data).1.sysex_buf = s.sysex_buf ∧
    (cmdStep s data).1.sysex_used = s.sysex_used ∧
    (cmdStep s data).1.sysex_delay = s.sysex_delay ∧
    (cmdStep s data).1.sysex_start = s.sysex_start := by
  unfold cmdStep
  split
  · dsimp only
    split
    · exact ⟨rfl, rfl, rfl, rfl, rfl⟩
    · exact ⟨rfl, rfl, rfl, rfl, rfl⟩
  · exact ⟨rfl, rfl, rfl, rfl, rfl⟩

lemma cmdStep_no_sysex_event (s : MidiSlot) (data : ℕ) (l : List ℕ) :
    MidiEvent.playSysex l ∉ (cmdStep s data).2 := by
  unfold cmdStep
  split
  · dsimp only
    split
    · simp
    · simp
  · simp

lemma statusLatch_f0 (s : MidiSlot) :
    statusLatch s 0xf0 =
      { s with status := 0xf0, cmd_pos := 0, cmd_len := MIDI_evt_len 0xf0,
               sysex_buf := upd s.sysex_buf 0 0xf0, sysex_used := 1 } := by
  unfold statusLatch
  rw [if_pos (by decide), if_pos rfl]

lemma statusLatch_high_ne (s : MidiSlot) (data : ℕ)
    (h : data &&& 0x80 ≠ 0) (hne : data ≠ 0xf0) :
    statusLatch s data =
      { s with status := data, cmd_pos := 0,
               cmd_len := MIDI_evt_len data } := by
  unfold statusLatch
  rw [if_pos h, if_neg hne]

lemma statusLatch_low (s : MidiSlot) (data : ℕ) (h : data &&& 0x80 = 0) :
    statusLatch s data = s := by
  unfold statusLatch
  rw [if_neg (by simpa using h)]

lemma statusLatch_delay_start (s : MidiSlot) (data : ℕ) :
    (statusLatch s data).sysex_delay = s.sysex_delay ∧
    (statusLatch s data).sysex_start = s.sysex_start := by
  unfold statusLatch
  split
  · dsimp only
    split
    · exact ⟨rfl, rfl⟩
    · exact ⟨rfl, rfl⟩
  · exact ⟨rfl, rfl⟩

lemma statusLatch_status_high (s : MidiSlot) (data : ℕ)
    (h : data &&& 0x80 ≠ 0) : (statusLatch s data).status = data := by
  unfold statusLatch
  rw [if_pos h]
  dsimp only
  split
  · rfl
  · rfl

lemma rawOutByte_fallthrough (s : MidiSlot) (data : ℕ) (now : ℤ)
    (hrt : ¬ 0xf8 ≤ data) (hnd : ¬ (s.status = 0xf0 ∧ data &&& 0x80 = 0)) :
    MIDI_RawOutByte s data now =
      ((cmdStep (statusLatch (if s.status = 0xf0 then finalizeSysex s now
          else (s, [])).1 data) data).1,
       (if s.status = 0xf0 then finalizeSysex s now else (s, [])).2 ++
       (cmdStep (statusLatch (if s.status = 0xf0 then finalizeSysex s now
          else (s, [])).1 data) data).2) := by
  unfold MIDI_RawOutByte
  rw [if_neg hrt, if_neg hnd]

lemma upd_ne (f : ℕ → ℕ) (i v j : ℕ) (h : j ≠ i) : upd f i v j = f j :=
  if_neg h

lemma finalizeSysex_fields (s : MidiSlot) (now : ℤ) :
    (finalizeSysex s now).1.sysex_used = s.sysex_used + 1 ∧
    (finalizeSysex s now).1.status = s.status ∧
    (finalizeSysex s now).1.sysex_buf = upd s.sysex_buf s.sysex_used 0xf7 := by
  unfold finalizeSysex
  dsimp only
  split
  · exact ⟨rfl, rfl, rfl⟩
  · split
    · exact ⟨rfl, rfl, rfl⟩
    · exact ⟨rfl, rfl, rfl⟩

/-- Claim C1: feeding `90 40 7F 41 7F` to a freshly cleared slot
dispatches exactly the two note-on messages `{90,40,7F}` and
`{90,41,7F}` (running status), and after each fixed-length dispatch
`cmd.pos` is reset to 1. -/
theorem running_status_two_messages :
    (feedBytes clearedSlot [0x90, 0x40, 0x7f, 0x41, 0x7f] 0).2 =
      [MidiEvent.playMsg [0x90, 0x40, 0x7f],
       MidiEvent.playMsg [0x90, 0x41, 0x7f]] ∧
    (feedBytes clearedSlot [0x90, 0x40, 0x7f] 0).1.cmd_pos = 1 ∧
    (feedBytes clearedSlot [0x90, 0x40, 0x7f, 0x41, 0x7f] 0).1.cmd_pos = 1 := by
  decide

/-- Claim C2: a realtime byte (>= 0xf8) is forwarded to the backend as
a single-byte message and the slot state is returned completely
unchanged, so an in-progress message still completes afterwards. -/
theorem realtime_passthrough (s : MidiSlot) (data : ℕ) (now : ℤ)
    (h : 0xf8 ≤ data) :
    MIDI_RawOutByte s data now = (s, [MidiEvent.playMsg [data]]) := by
  unfold MIDI_RawOutByte
  rw [if_pos h]

/-- Witness for `realtime_passthrough`: 0xfa (MIDI start). -/
theorem realtime_passthrough_witness :
    (0xf8 ≤ 0xfa) ∧
    MIDI_RawOutByte clearedSlot 0xfa 0 =
      (clearedSlot, [MidiEvent.playMsg [0xfa]]) :=
  ⟨by decide, realtime_passthrough clearedSlot 0xfa 0 (by decide)⟩

/-- Claim C5: feeding `F0 41 10 00 04 00 F7` to a freshly cleared slot
produces exactly one `PlaySysex` dispatch, whose buffer has length 7
and ends in the appended 0xf7 terminator. -/
theorem sysex_roundtrip_dispatch :
    (feedBytes clearedSlot [0xf0, 0x41, 0x10, 0x00, 0x04, 0x00, 0xf7] 0).2 =
      [MidiEvent.playSysex [0xf0, 0x41, 0x10, 0x00, 0x04, 0x00, 0xf7]] ∧
    ([0xf0, 0x41, 0x10, 0x00, 0x04, 0x00, 0xf7] : List ℕ).length = 7 ∧
    ([0xf0, 0x41, 0x10, 0x00, 0x04, 0x00, 0xf7] : List ℕ).getLast? =
      some 0xf7 := by
  decide

/-- Counterexample to claim C6 as stated: the sysex
`F0 42 10 00 04 00 F7` (length 7, pacing armed, no device-specific
signature) is dispatched with stored delay 4 = trunc(2.8) + 2, whereas
the claimed formula ceil(7 × 1.25 / 3.125) + 2 gives 5. -/
theorem sysex_delay_ceil_counterexample :
    (feedBytes armedSlot [0xf0, 0x42, 0x10, 0x00, 0x04, 0x00, 0xf7] 1000).2 =
      [MidiEvent.playSysex [0xf0, 0x42, 0x10, 0x00, 0x04, 0x00, 0xf7]] ∧
    (feedBytes armedSlot
        [0xf0, 0x42, 0x10, 0x00, 0x04, 0x00, 0xf7] 1000).1.sysex_delay = 4 ∧
    ⌈((7 : ℚ) * 1.25) / 3.125⌉ + 2 = 5 := by
  refine ⟨by decide, ?_, ?_⟩
  · have h1 : (feedBytes armedSlot
        [0xf0, 0x42, 0x10, 0x00, 0x04, 0x00, 0xf7] 1000).1.sysex_delay =
        delay_in_ms 7 := by rfl
    rw [h1]
    norm_num [delay_in_ms]
  · have h : ⌈((7 : ℚ) * 1.25) / 3.125⌉ = 3 := by
      rw [Int.ceil_eq_iff]
      norm_num
    rw [h]
    norm_num

/-- Claim C6 as amended: for a finalized sysex of length L =
`sysex.used + 1` (terminator included), pacing armed and no
device-specific signature matched, the stored delay is
`⌊L × 1.25 / 3.125⌋ + 2` milliseconds - a truncating cast, not a
ceiling - and `start` is re-stamped with the current tick count. -/
theorem sysex_baseline_delay (s : MidiSlot) (data : ℕ) (now : ℤ)
    (hst : s.status = 0xf0) (hhi : data &&& 0x80 ≠ 0) (hrt : data < 0xf8)
    (harm : s.sysex_start ≠ 0)
    (hskip : ¬ (4 ≤ s.sysex_used + 1 ∧ s.sysex_used + 1 ≤ 9 ∧
        upd s.sysex_buf s.sysex_used 0xf7 1 = 0x41 ∧
        upd s.sysex_buf s.sysex_used 0xf7 3 = 0x16))
    (h5 : ¬ upd s.sysex_buf s.sysex_used 0xf7 5 = 0x7f)
    (h6 : ¬ (upd s.sysex_buf s.sysex_used 0xf7 5 = 0x10 ∧
        upd s.sysex_buf s.sysex_used 0xf7 6 = 0x00 ∧
        upd s.sysex_buf s.sysex_used 0xf7 7 = 0x04))
    (h7 : ¬ (upd s.sysex_buf s.sysex_used 0xf7 5 = 0x10 ∧
        upd s.sysex_buf s.sysex_used 0xf7 6 = 0x00 ∧
        upd s.sysex_buf s.sysex_used 0xf7 7 = 0x01)) :
    (MIDI_RawOutByte s data now).1.sysex_delay =
      ⌊(((s.sysex_used + 1 : ℕ) : ℚ) * 1.25) / 3.125⌋ + 2 ∧
    (MIDI_RawOutByte s data now).1.sysex_start = now := by
  have hnd : ¬ (s.status = 0xf0 ∧ data &&& 0x80 = 0) := fun hx => hhi hx.2
  rw [rawOutByte_fallthrough s data now (not_le.mpr hrt) hnd]
  dsimp only
  rw [if_pos hst]
  obtain ⟨-, -, -, hcd, hcs⟩ :=
    cmdStep_sysex_fields (statusLatch (finalizeSysex s now).1 data) data
  rw [hcd, hcs]
  obtain ⟨hld, hls⟩ := statusLatch_delay_start (finalizeSysex s now).1 data
  rw [hld, hls]
  unfold finalizeSysex
  dsimp only
  rw [if_neg (fun hx => hskip ⟨hx.2.1, hx.2.2.1, hx.2.2.2.1, hx.2.2.2.2⟩)]
  rw [if_pos harm]
  rw [if_neg h5, if_neg h6, if_neg h7]
  exact ⟨rfl, rfl⟩

/-- Witness for `sysex_baseline_delay`: the armed slot after the body
`F0 42 10 00 04 00`, terminated by 0xf7 (L = 7, delay 4). -/
theorem sysex_baseline_delay_witness :
    (MIDI_RawOutByte c6Slot 0xf7 1000).1.sysex_delay =
      ⌊(((c6Slot.sysex_used + 1 : ℕ) : ℚ) * 1.25) / 3.125⌋ + 2 ∧
    (MIDI_RawOutByte c6Slot 0xf7 1000).1.sysex_start = 1000 :=
  sysex_baseline_delay c6Slot 0xf7 1000 (by decide) (by decide) (by decide)
    (by decide) (by decide) (by decide) (by decide) (by decide)

/-- Counterexample to claim C7 as stated: the discard of a short
MT-32-style sysex is conditional on the slot's pacing being armed
(`midi.sysex[slot].start != 0`).  On a freshly cleared, unarmed slot
(`start = 0`), the malformed buffer `F0 41 10 16 F7` (length 5,
`buf[1]=0x41`, `buf[3]=0x16`) is NOT discarded: `PlaySysex` is called
with it. -/
theorem mt32_short_sysex_sent_unarmed :
    clearedSlot.sysex_start = 0 ∧
    (feedBytes clearedSlot [0xf0, 0x41, 0x10, 0x16, 0xf7] 0).2 =
      [MidiEvent.playSysex [0xf0, 0x41, 0x10, 0x16, 0xf7]] := by
  decide

/-- Claim C7 as amended: when the slot's sysex pacing is armed
(`start != 0`), a finalized MT-32-style sysex too short to contain a
checksum (total length 4..9, `buf[1]==0x41`, `buf[3]==0x16`) is
logged and discarded: no `PlaySysex` call is made, the log branch
runs, and the parser latches the arriving status byte so it recovers
at the next status byte.  (On an unarmed slot the buffer is sent, see
the counterexample above.) -/
theorem mt32_short_sysex_discarded (s : MidiSlot) (data : ℕ) (now : ℤ)
    (hst : s.status = 0xf0) (hhi : data &&& 0x80 ≠ 0) (hrt : data < 0xf8)
    (harm : s.sysex_start ≠ 0)
    (h4 : 4 ≤ s.sysex_used + 1) (h9 : s.sysex_used + 1 ≤ 9)
    (hb1 : upd s.sysex_buf s.sysex_used 0xf7 1 = 0x41)
    (hb3 : upd s.sysex_buf s.sysex_used 0xf7 3 = 0x16) :
    (∀ l, MidiEvent.playSysex l ∉ (MIDI_RawOutByte s data now).2) ∧
    MidiEvent.logSkippedSysex ∈ (MIDI_RawOutByte s data now).2 ∧
    (MIDI_RawOutByte s data now).1.status = data := by
  have hnd : ¬ (s.status = 0xf0 ∧ data &&& 0x80 = 0) := fun hx => hhi hx.2
  rw [rawOutByte_fallthrough s data now (not_le.mpr hrt) hnd]
  dsimp only
  rw [if_pos hst]
  have hfin : finalizeSysex s now =
      ({ s with sysex_buf := upd s.sysex_buf s.sysex_used 0xf7,
                sysex_used := s.sysex_used + 1 },
       [MidiEvent.logSkippedSysex]) := by
    unfold finalizeSysex
    dsimp only
    rw [if_pos ⟨harm, h4, h9, hb1, hb3⟩]
  rw [hfin]
  refine ⟨?_, by simp, ?_⟩
  · intro l hl
    rw [List.mem_append] at hl
    rcases hl with hl | hl
    · simp at hl
    · exact cmdStep_no_sysex_event _ data l hl
  · obtain ⟨hcs, -, -, -, -⟩ := cmdStep_sysex_fields (statusLatch _ data) data
    rw [hcs, statusLatch_status_high _ data hhi]

/-- Witness for `mt32_short_sysex_discarded`: the armed slot after
`F0 41 10 16`, terminated by 0xf7. -/
theorem mt32_short_sysex_discarded_witness :
    MidiEvent.playSysex [0xf0, 0x41, 0x10, 0x16, 0xf7] ∉
      (MIDI_RawOutByte c7Slot 0xf7 1000).2 ∧
    MidiEvent.logSkippedSysex ∈ (MIDI_RawOutByte c7Slot 0xf7 1000).2 ∧
    (MIDI_RawOutByte c7Slot 0xf7 1000).1.status = 0xf7 :=
  have h := mt32_short_sysex_discarded c7Slot 0xf7 1000 (by decide) (by decide)
    (by decide) (by decide) (by decide) (by decide) (by decide) (by decide)
  ⟨h.1 _, h.2.1, h.2.2⟩

/-- Claim C8: for every byte, `MIDI_RawOutByte` preserves the sysex
capacity invariant (`used ≤ MIDI_SYSEX_SIZE - 1` while collecting,
`used ≤ MIDI_SYSEX_SIZE` always), never writes the sysex buffer at or
beyond index `MIDI_SYSEX_SIZE`, and - the append guard - drops a
sysex data byte entirely once `used` has reached
`MIDI_SYSEX_SIZE - 1`, reserving the final slot for the 0xf7
terminator. -/
theorem sysex_capacity (s : MidiSlot) (data : ℕ) (now : ℤ)
    (hinv : sysexInv s) :
    sysexInv (MIDI_RawOutByte s data now).1 ∧
    (∀ j, MIDI_SYSEX_SIZE ≤ j →
        (MIDI_RawOutByte s data now).1.sysex_buf j = s.sysex_buf j) ∧
    (s.status = 0xf0 → data &&& 0x80 = 0 →
        ¬ s.sysex_used < MIDI_SYSEX_SIZE - 1 →
        (MIDI_RawOutByte s data now).1 = s) := by
  obtain ⟨hinv1, hinv2⟩ := hinv
  have hSZ : MIDI_SYSEX_SIZE = 8192 := rfl
  by_cases hrt : 0xf8 ≤ data
  · unfold MIDI_RawOutByte
    rw [if_pos hrt]
    exact ⟨⟨hinv1, hinv2⟩, fun j _ => rfl, fun _ _ _ => rfl⟩
  · by_cases hd : s.status = 0xf0 ∧ data &&& 0x80 = 0
    · unfold MIDI_RawOutByte
      rw [if_neg hrt, if_pos hd]
      by_cases hu : s.sysex_used < MIDI_SYSEX_SIZE - 1
      · rw [if_pos hu]
        refine ⟨⟨fun _ => ?_, ?_⟩, ?_, ?_⟩
        · show s.sysex_used + 1 ≤ MIDI_SYSEX_SIZE - 1
          omega
        · show s.sysex_used + 1 ≤ MIDI_SYSEX_SIZE
          omega
        · intro j hj
          exact upd_ne _ _ _ _ (by omega)
        · intro _ _ hcontra
          exact absurd hu hcontra
      · rw [if_neg hu]
        exact ⟨⟨hinv1, hinv2⟩, fun j _ => rfl, fun _ _ _ => rfl⟩
    · rw [rawOutByte_fallthrough s data now hrt hd]
      dsimp only
      by_cases hst : s.status = 0xf0
      · have hdhigh : data &&& 0x80 ≠ 0 := fun h0 => hd ⟨hst, h0⟩
        rw [if_pos hst]
        have husz : s.sysex_used ≤ MIDI_SYSEX_SIZE - 1 := hinv1 hst
        by_cases hf0 : data = 0xf0
        · subst hf0
          rw [statusLatch_f0]
          refine ⟨⟨fun _ => ?_, ?_⟩, ?_, ?_⟩
          · simp only [cmdStep_sysex_fields]
            show (1 : ℕ) ≤ MIDI_SYSEX_SIZE - 1
            omega
          · simp only [cmdStep_sysex_fields]
            show (1 : ℕ) ≤ MIDI_SYSEX_SIZE
            omega
          · intro j hj
            simp only [cmdStep_sysex_fields]
            show upd (finalizeSysex s now).1.sysex_buf 0 0xf0 j = s.sysex_buf j
            rw [upd_ne _ _ _ _ (by omega), (finalizeSysex_fields s now).2.2,
              upd_ne _ _ _ _ (by omega)]
          · intro _ hl0 _
            exact absurd hl0 hdhigh
        · rw [statusLatch_high_ne _ data hdhigh hf0]
          refine ⟨⟨fun hx => ?_, ?_⟩, ?_, ?_⟩
          · simp only [cmdStep_sysex_fields] at hx
            exact absurd hx hf0
          · simp only [cmdStep_sysex_fields]
            show (finalizeSysex s now).1.sysex_used ≤ MIDI_SYSEX_SIZE
            rw [(finalizeSysex_fields s now).1]
            omega
          · intro j hj
            simp only [cmdStep_sysex_fields]
            show (finalizeSysex s now).1.sysex_buf j = s.sysex_buf j
            rw [(finalizeSysex_fields s now).2.2, upd_ne _ _ _ _ (by omega)]
          · intro _ hl0 _
            exact absurd hl0 hdhigh
      · rw [if_neg hst]
        dsimp only
        by_cases hhi : data &&& 0x80 ≠ 0
        · by_cases hf0 : data = 0xf0
          · subst hf0
            rw [statusLatch_f0]
            refine ⟨⟨fun _ => ?_, ?_⟩, ?_, ?_⟩
            · simp only [cmdStep_sysex_fields]
              show (1 : ℕ) ≤ MIDI_SYSEX_SIZE - 1
              omega
            · simp only [cmdStep_sysex_fields]
              show (1 : ℕ) ≤ MIDI_SYSEX_SIZE
              omega
            · intro j hj
              simp only [cmdStep_sysex_fields]
              show upd s.sysex_buf 0 0xf0 j = s.sysex_buf j
              exact upd_ne _ _ _ _ (by omega)
            · intro hs0
              exact absurd hs0 hst
          · rw [statusLatch_high_ne _ data hhi hf0]
            refine ⟨⟨fun hx => ?_, ?_⟩, ?_, ?_⟩
            · simp only [cmdStep_sysex_fields] at hx
              exact absurd hx hf0
            · simp only [cmdStep_sysex_fields]
              exact hinv2
            · intro j hj
              simp only [cmdStep_sysex_fields]
            · intro hs0
              exact absurd hs0 hst
        · have hlow : data &&& 0x80 = 0 := by simpa using hhi
          rw [statusLatch_low _ data hlow]
          refine ⟨⟨fun hx => ?_, ?_⟩, ?_, ?_⟩
          · simp only [cmdStep_sysex_fields] at hx
            exact absurd hx hst
          · simp only [cmdStep_sysex_fields]
            exact hinv2
          · intro j hj
            simp only [cmdStep_sysex_fields]
          · intro hs0
            exact absurd hs0 hst

/-- Witness for `sysex_capacity`: a cleared slot receiving a data
byte; position 9000 of the buffer is untouched. -/
theorem sysex_capacity_witness :
    sysexInv clearedSlot ∧
    sysexInv (MIDI_RawOutByte clearedSlot 0x41 0).1 ∧
    (MIDI_RawOutByte clearedSlot 0x41 0).1.sysex_buf 9000 =
      clearedSlot.sysex_buf 9000 :=
  have hinv : sysexInv clearedSlot :=
    ⟨fun h => absurd h (by decide), by decide⟩
  have h := sysex_capacity clearedSlot 0x41 0 hinv
  ⟨hinv, h.1, h.2.1 9000 (by decide)⟩

lemma getdefault_eq_autoPick (hs : List MidiHandlerM) :
    getdefault hs = autoPick hs := by
  induction hs with
  | nil => rfl
  | cons h rest ih =>
    by_cases h1 : h.name = "fluidsynth"
    · show (if h.name = "fluidsynth" then getdefault rest
        else if h.name = "mt32" then getdefault rest
        else if h.openOk then some h else getdefault rest) = _
      rw [if_pos h1, ih]
      unfold autoPick
      rw [List.find?_cons_of_neg _ (by simp [h1])]
    · by_cases h2 : h.name = "mt32"
      · show (if h.name = "fluidsynth" then getdefault rest
          else if h.name = "mt32" then getdefault rest
          else if h.openOk then some h else getdefault rest) = _
        rw [if_neg h1, if_pos h2, ih]
        unfold autoPick
        rw [List.find?_cons_of_neg _ (by simp [h2])]
      · by_cases h3 : h.openOk
        · show (if h.name = "fluidsynth" then getdefault rest
            else if h.name = "mt32" then getdefault rest
            else if h.openOk then some h else getdefault rest) = _
          rw [if_neg h1, if_neg h2, if_pos h3]
          unfold autoPick
          rw [List.find?_cons_of_pos _ (by simp [h1, h2, h3])]
        · show (if h.name = "fluidsynth" then getdefault rest
            else if h.name = "mt32" then getdefault rest
            else if h.openOk then some h else getdefault rest) = _
          rw [if_neg h1, if_neg h2, if_neg h3, ih]
          unfold autoPick
          rw [List.find?_cons_of_neg _ (by simp [h1, h2, h3])]

lemma getdefault_terminal (hs : List MidiHandlerM) :
    (getdefault (hs ++ [midiNoneHandler])).isSome = true := by
  induction hs with
  | nil => rfl
  | cons h rest ih =>
    simp only [List.cons_append, getdefault]
    by_cases h1 : h.name = "fluidsynth"
    · simpa [h1] using ih
    · by_cases h2 : h.name = "mt32"
      · simpa [h1, h2] using ih
      · by_cases h3 : h.openOk
        · simp [h1, h2, h3]
        · simpa [h1, h2, h3] using ih

/-- Claim C9: when the device name is "auto" or "default", or a named
device is missing from the list, or is found but fails to open,
selection runs the `getdefault` iteration, which picks exactly the
first handler that is neither `fluidsynth` nor `mt32` and opens
successfully; and with the built-in "none" handler sitting last in
the list, selection always produces a backend. -/
theorem midi_backend_selection (dev : String) (hs : List MidiHandlerM)
    (hcase : dev = "auto" ∨ dev = "default" ∨ handlerFind dev hs = none ∨
        ∃ hd, handlerFind dev hs = some hd ∧ hd.openOk = false) :
    midiSelect dev hs =
      (hs.find? fun h =>
        (!(h.name == "fluidsynth") && !(h.name == "mt32")) && h.openOk) ∧
    (midiSelect dev (hs ++ [midiNoneHandler])).isSome = true := by
  constructor
  · show midiSelect dev hs = autoPick hs
    unfold midiSelect
    rcases hcase with h | h | h | ⟨hd, hfind, hopen⟩
    · rw [if_pos (Or.inl h)]
      exact getdefault_eq_autoPick hs
    · rw [if_pos (Or.inr h)]
      exact getdefault_eq_autoPick hs
    · by_cases had : dev = "auto" ∨ dev = "default"
      · rw [if_pos had]
        exact getdefault_eq_autoPick hs
      · rw [if_neg had, h]
        exact getdefault_eq_autoPick hs
    · by_cases had : dev = "auto" ∨ dev = "default"
      · rw [if_pos had]
        exact getdefault_eq_autoPick hs
      · rw [if_neg had, hfind]
        dsimp only
        rw [if_neg (by simp [hopen])]
        exact getdefault_eq_autoPick hs
  · unfold midiSelect
    by_cases had : dev = "auto" ∨ dev = "default"
    · rw [if_pos had]
      exact getdefault_terminal hs
    · rw [if_neg had]
      cases hfa : handlerFind dev (hs ++ [midiNoneHandler]) with
      | none => exact getdefault_terminal hs
      | some hd =>
        dsimp only
        by_cases ho : hd.openOk
        · simp [ho]
        · rw [if_neg (by simp [ho])]
          exact getdefault_terminal hs

/-- Witness for `midi_backend_selection`: device "auto" with a
fluidsynth entry ahead of an openable backend. -/
theorem midi_backend_selection_witness :
    midiSelect "auto"
        [{ name := "fluidsynth", openOk := true },
         { name := "coremidi", openOk := true }] =
      ([{ name := "fluidsynth", openOk := true },
        { name := "coremidi", openOk := true }].find? fun h =>
          (!(h.name == "fluidsynth") && !(h.name == "mt32")) && h.openOk) ∧
    (midiSelect "auto"
        ([{ name := "fluidsynth", openOk := true },
          { name := "coremidi", openOk := true }] ++
         [midiNoneHandler])).isSome = true :=
  midi_backend_selection "auto" _ (Or.inl rfl)

/-- Claim C10: `MIDI_RawOutRTByte` sends nothing when the realtime
flag is off; sends nothing for 0xf8 (MIDI clock) when clock
passthrough is off; and otherwise forwards the byte to the active
handler as a single realtime message. -/
theorem rt_byte_gating (realtime clockout : Bool) (data : ℕ) :
    (realtime = false → MIDI_RawOutRTByte realtime clockout data = []) ∧
    (realtime = true → clockout = false → data = 0xf8 →
        MIDI_RawOutRTByte realtime clockout data = []) ∧
    (realtime = true → (clockout = true ∨ data ≠ 0xf8) →
        MIDI_RawOutRTByte realtime clockout data =
          [MidiEvent.playMsg [data]]) := by
  refine ⟨?_, ?_, ?_⟩
  · intro h
    subst h
    rfl
  · intro h1 h2 h3
    subst h1; subst h2; subst h3
    rfl
  · intro h1 h2
    subst h1
    rcases h2 with h | h
    · subst h
      simp [MIDI_RawOutRTByte]
    · simp [MIDI_RawOutRTByte, h]

/-- Witness for `rt_byte_gating`: realtime disabled, clock gated, and
an ungated realtime byte. -/
theorem rt_byte_gating_witness :
    MIDI_RawOutRTByte false true 0x90 = [] ∧
    MIDI_RawOutRTByte true false 0xf8 = [] ∧
    MIDI_RawOutRTByte true false 0xfa = [MidiEvent.playMsg [0xfa]] :=
  ⟨(rt_byte_gating false true 0x90).1 rfl,
   (rt_byte_gating true false 0xf8).2.1 rfl rfl rfl,
   (rt_byte_gating true false 0xfa).2.2 rfl (Or.inr (by decide))⟩
